import Mathlib

/-!
Verification development for the desk-companion sensing/control core
(radar frame decoder, BLE frame decoder, HRV engine, presence logic and
finite-state controller). Python sources are embedded shallowly: byte
buffers become `List ℕ`, bounded deques become capacity-dropping lists,
and stateful loops become explicit fueled recursion on the state.
-/

namespace AroundDemo

/-- `deque(maxlen = cap).append v`: append and evict oldest elements so the
length never exceeds `cap`. -/
def pushCap (cap : ℕ) (buf : List ℕ) (v : ℕ) : List ℕ :=
  let l := buf ++ [v]
  if l.length ≤ cap then l else l.drop (l.length - cap)

/-- `deque.extend vs` under a maxlen cap: repeated `pushCap`. -/
def extendCap (cap : ℕ) (buf : List ℕ) (vs : List ℕ) : List ℕ :=
  vs.foldl (pushCap cap) buf

/-- Index of the first occurrence of byte `b`, as Python `bytearray.find(b)`
(returning `none` for -1). -/
def findByte (b : ℕ) : List ℕ → Option ℕ
  | [] => none
  | a :: r => if a = b then some 0 else (findByte b r).map (· + 1)

/-! ## BLE frame decoder (`BLE._notification_handler`, src/ble.py)

Frame layout: `frame_size = 10` bytes, `header_byte = 0xFF`, then nine
data bytes `[hr, spo2, sdnn, rri1, rri2, rri3, gyro, b8, b9]`.
Deque capacities: `max_buffer_size = 120` for hr/spo2/sdnn/gyro and
`max_buffer_size * 4 = 480` for rri. -/

structure BleState where
  receiveBuffer : List ℕ
  hr : List ℕ
  bloodOxygen : List ℕ
  sdnn : List ℕ
  rri : List ℕ
  gyroscope : List ℕ
  dataValid : Bool
deriving DecidableEq

def bleInit : BleState :=
  ⟨[], [], [], [], [], [], false⟩

/-- Body of the `if frame[0] == self.header_byte` block: extract
`valid_data = frame[1:10]` and push each stream, clamping the heart rate
to 0 outside `[50, 190]`. -/
def bleProcessFrame (st : BleState) (frame : List ℕ) : BleState :=
  if frame.headD 0 = 255 then
    let vd := (frame.drop 1).take 9
    let hrv := vd.getD 0 0
    { st with
      hr := pushCap 120 st.hr (if hrv < 50 ∨ 190 < hrv then 0 else hrv)
      bloodOxygen := pushCap 120 st.bloodOxygen (vd.getD 1 0)
      sdnn := pushCap 120 st.sdnn (vd.getD 2 0)
      rri := extendCap 480 st.rri ((vd.drop 3).take 3)
      gyroscope := pushCap 120 st.gyroscope (vd.getD 6 0)
      dataValid := true }
  else st

/-- The `while len(self.receive_buffer) >= self.frame_size` loop of
`_notification_handler`. Each productive iteration removes at least the
10 bytes of one frame, so buffer length is a valid fuel bound. -/
def bleParseLoop (st : BleState) : ℕ → BleState
  | 0 => st
  | fuel + 1 =>
    if st.receiveBuffer.length ≥ 10 then
      match findByte 255 st.receiveBuffer with
      | none => { st with receiveBuffer := [] }
      | some hi =>
        let st1 := { st with receiveBuffer := st.receiveBuffer.drop hi }
        if st1.receiveBuffer.length ≥ 10 then
          let st2 := bleProcessFrame st1 (st1.receiveBuffer.take 10)
          bleParseLoop { st2 with receiveBuffer := st2.receiveBuffer.drop 10 } fuel
        else st1
    else st

/-- `BLE._notification_handler(sender, data)`: extend the receive buffer
with the notification payload, then run the frame-parsing loop. -/
def notificationHandler (st : BleState) (data : List ℕ) : BleState :=
  let st' : BleState := { st with receiveBuffer := st.receiveBuffer ++ data }
  bleParseLoop st' (st'.receiveBuffer.length + 1)

/-! ## Device controller state machine (`dot.__init__`, src/demo.py)

The state and transition tables are taken verbatim from the `Machine`
configuration in demo.py (states list, transitions list,
`auto_transitions=False`, `ignore_invalid_triggers=True`, `queued=True`). -/

inductive DotState
  | booting | baseline | waiting | engaged | guidingFatigue
  | guidingMode1 | guidingMode2 | guidingMode3 | deskIdle
deriving DecidableEq

inductive Trigger
  | start | baselineDone | personDetected | lostPerson | needFatigue
  | needMode1 | needMode2 | needMode3 | enterIdle | idleDone | guideFinished
deriving DecidableEq

structure TransRule where
  trigger : Trigger
  source : List DotState
  dest : DotState
deriving DecidableEq

def transitionTable : List TransRule := [
  ⟨.start, [.booting], .baseline⟩,
  ⟨.baselineDone, [.baseline], .waiting⟩,
  ⟨.personDetected, [.waiting], .engaged⟩,
  ⟨.lostPerson, [.engaged, .guidingFatigue, .guidingMode1, .guidingMode2, .guidingMode3], .waiting⟩,
  ⟨.needFatigue, [.engaged], .guidingFatigue⟩,
  ⟨.needMode1, [.engaged, .deskIdle], .guidingMode1⟩,
  ⟨.needMode2, [.engaged, .deskIdle], .guidingMode2⟩,
  ⟨.needMode3, [.engaged, .deskIdle], .guidingMode3⟩,
  ⟨.enterIdle, [.guidingMode1, .guidingMode2, .guidingMode3, .engaged], .deskIdle⟩,
  ⟨.idleDone, [.deskIdle], .waiting⟩,
  ⟨.lostPerson, [.deskIdle], .waiting⟩,
  ⟨.guideFinished, [.guidingFatigue, .guidingMode1, .guidingMode2, .guidingMode3], .waiting⟩]

/-- `ignore_invalid_triggers=True` in the `Machine` configuration of demo.py. -/
def ignoreInvalidTriggers : Bool := true

/-- Modelled from the spec: event dispatch of the external `transitions`
library `Machine` (not part of src/), as configured in `dot.__init__`:
the first transition whose trigger matches and whose source list contains
the current state fires; otherwise, with `ignore_invalid_triggers=True`,
the event is a no-op instead of raising `MachineError`. -/
def fireEvent (s : DotState) (e : Trigger) : Except String DotState :=
  match transitionTable.find? (fun r => decide (r.trigger = e ∧ s ∈ r.source)) with
  | some r => .ok r.dest
  | none => if ignoreInvalidTriggers then .ok s else .error "MachineError"

/-- All declared source states of a trigger, over every table row. -/
def declaredSources (e : Trigger) : List DotState :=
  (transitionTable.filter (fun r => r.trigger == e)).flatMap (·.source)

/-! ## Radar reader state (`MicRadar`, src/micRadar3.py)

Deque capacities are all 480.  The attribute `_last_hr_time` is created
lazily by `preprocess_data`, hence an `Option`. -/

structure RadarState where
  buffer : List ℕ
  heartRate : List ℕ
  breathRate : List ℕ
  motionPara : List ℕ
  lastHrTime : Option ℕ
deriving DecidableEq

def radarInit : RadarState := ⟨[], [], [], [], none⟩

/-- `MicRadar.preprocess_data(hr, br, motion, rr)` at wall-clock time
`now`: rr equal to 0 is rejected first; otherwise `_last_hr_time` is
initialized to `now` on the very first call, and refreshed whenever a
nonzero hr is passed.  `br` and `motion` are accepted unconditionally
(their filter code is commented out in the source). -/
def preprocessData (st : RadarState) (now : ℕ)
    (hr br motion rr : Option ℕ) : RadarState × Bool :=
  if rr = some 0 then (st, false)
  else
    let st1 := if st.lastHrTime = none then { st with lastHrTime := some now } else st
    let st2 := match hr with
      | some v => if v ≠ 0 then { st1 with lastHrTime := some now } else st1
      | none => st1
    (st2, true)

/-- Frame dispatch of `MicRadar.read_line` for a validated frame with
control byte `ctrl`, command byte `cmd` and payload `payload`, at time
`now`.  Heart-rate frames (0x85, 0x02) append `payload[0]` only when it
is nonzero; breath (0x81, 0x02) and motion (0x80, 0x03) frames append
`payload[0]` unconditionally.  On any of these three frame types an
EMPTY payload makes `payload[0]` raise IndexError, which nothing in
`read_line` or `read_loop` catches: the reader thread dies.  That crash
is `none`; the state is untouched at that point because the subscript is
evaluated before `preprocess_data` and before any append.  Frames of any
other type are ignored (`some st`). -/
def radarDispatch (st : RadarState) (now : ℕ) (ctrl cmd : ℕ)
    (payload : List ℕ) : Option RadarState :=
  if ctrl = 0x85 ∧ cmd = 0x02 then
    match payload.head? with
    | some hr =>
      let pr := preprocessData st now (some hr) none none none
      if pr.2 ∧ hr ≠ 0 then
        some { pr.1 with heartRate := pushCap 480 pr.1.heartRate hr }
      else some pr.1
    | none => none
  else if ctrl = 0x81 ∧ cmd = 0x02 then
    match payload.head? with
    | some br =>
      let pr := preprocessData st now none (some br) none none
      if pr.2 then some { pr.1 with breathRate := pushCap 480 pr.1.breathRate br }
      else some pr.1
    | none => none
  else if ctrl = 0x80 ∧ cmd = 0x03 then
    match payload.head? with
    | some m =>
      let pr := preprocessData st now none none (some m) none
      if pr.2 then some { pr.1 with motionPara := pushCap 480 pr.1.motionPara m }
      else some pr.1
    | none => none
  else some st

/-- A validated radar frame together with its arrival time. -/
structure RFrameEvt where
  time : ℕ
  ctrl : ℕ
  cmd : ℕ
  payload : List ℕ
deriving DecidableEq

/-- Dispatch a sequence of validated frames in arrival order.  When a
dispatch raises (empty payload on a handled frame type), the reader
thread is dead: the state stops evolving and the remaining frames are
never processed. -/
def radarRunFramesAux : List RFrameEvt → RadarState → RadarState
  | [], st => st
  | e :: rest, st =>
    match radarDispatch st e.time e.ctrl e.cmd e.payload with
    | some st' => radarRunFramesAux rest st'
    | none => st

/-- Dispatch a sequence of validated frames from the initial state. -/
def radarRunFrames (trace : List RFrameEvt) : RadarState :=
  radarRunFramesAux trace radarInit

/-- demo.py `monitor_here` presence computation:
`(time.time() - getattr(radar, '_last_hr_time', 0)) < 8`.  Truncated ℕ
subtraction agrees with the Python float comparison: whenever the stored
timestamp exceeds `now` both sides are below the threshold. -/
def presenceHere (st : RadarState) (now : ℕ) : Bool :=
  now - st.lastHrTime.getD 0 < 8

/-! ## Radar byte-stream frame decoder (`MicRadar.read_line`)

Frame layout: `53 59 | CTRL | CMD | LEN(2, big endian) | PAYLOAD |
CKSUM | 54 43`, total length `9 + LEN`.  `calc_checksum` is
sum-of-bytes mod 256 over header through payload. -/

/-- Index of the first occurrence of the 2-byte header `53 59`, as
`bytearray.find(b'\x53\x59')`. -/
def findMagic : List ℕ → Option ℕ
  | [] => none
  | [_] => none
  | a :: b :: r =>
    if a = 0x53 ∧ b = 0x59 then some 0 else (findMagic (b :: r)).map (· + 1)

/-- `True` when the byte list contains no `53 59` two-byte subsequence. -/
def magicFree : List ℕ → Bool
  | a :: b :: r => !(decide (a = 0x53 ∧ b = 0x59)) && magicFree (b :: r)
  | _ => true

/-- `MicRadar.calc_checksum`: sum of bytes mod 256. -/
def calcChecksum (data : List ℕ) : ℕ := data.sum % 256

/-- One decode attempt of the `MicRadar.read_line` loop body on the
buffered bytes: locate the header, wait for the fixed prefix and the
declared total length, validate the `54 43` terminator and the checksum
(resynchronizing by one byte on either mismatch), and on success return
the frame fields `(ctrl, cmd, payload)` with the consumed bytes removed. -/
def radarPoll (buf : List ℕ) : Option (ℕ × ℕ × List ℕ) × List ℕ :=
  match findMagic buf with
  | none => (none, buf)
  | some idx =>
    if buf.length < idx + 8 then (none, buf)
    else
      let tail := buf.drop idx
      let ctrl := tail.getD 2 0
      let cmd := tail.getD 3 0
      let len := 256 * tail.getD 4 0 + tail.getD 5 0
      let total := 9 + len
      if buf.length < idx + total then (none, buf)
      else
        let frame := tail.take total
        if frame.drop (total - 2) ≠ [0x54, 0x43] then (none, buf.drop (idx + 1))
        else if calcChecksum (frame.take (6 + len)) ≠ frame.getD (6 + len) 0 then
          (none, buf.drop (idx + 1))
        else (some (ctrl, cmd, (frame.drop 6).take len), buf.drop (idx + total))

/-- One poll followed by handler dispatch of the decoded frame (the body
of `read_line` after a chunk has been appended).  `none` is the
uncaught IndexError of an empty-payload handled frame: the thread dies. -/
def radarStep (st : RadarState) (now : ℕ) :
    Option (RadarState × Option (ℕ × ℕ × List ℕ)) :=
  match radarPoll st.buffer with
  | (some (c, m, p), buf') =>
    match radarDispatch { st with buffer := buf' } now c m p with
    | some st' => some (st', some (c, m, p))
    | none => none
  | (none, buf') => some ({ st with buffer := buf' }, none)

/-- Repeated decode steps on the current buffer until a step neither
yields a frame nor changes the buffer; collects the dispatched frames in
order.  A dispatch that raises kills the reader thread: decoding stops
and the crashing frame reaches no handler.  Every productive step
shortens the buffer, so any fuel above the buffer length reaches the
fixpoint. -/
def radarDrain (st : RadarState) (now : ℕ) :
    ℕ → RadarState × List (ℕ × ℕ × List ℕ)
  | 0 => (st, [])
  | fuel + 1 =>
    match radarPoll st.buffer with
    | (some (c, m, p), buf') =>
      match radarDispatch { st with buffer := buf' } now c m p with
      | some st' =>
        let r := radarDrain st' now fuel
        (r.1, (c, m, p) :: r.2)
      | none => (st, [])
    | (none, buf') =>
      if buf' = st.buffer then (st, [])
      else radarDrain { st with buffer := buf' } now fuel

/-- One iteration of the `while self.is_reading` serial loop: an empty
chunk skips parsing entirely; a nonempty chunk is appended and one decode
attempt runs.  `none` propagates the reader-thread death. -/
def radarChunkStep (st : RadarState) (now : ℕ) (chunk : List ℕ) :
    Option RadarState :=
  if chunk = [] then some st
  else (radarStep { st with buffer := st.buffer ++ chunk } now).map (·.1)

/-- Run the serial loop over a sequence of timed chunks; once a step
crashes the thread, the state stops evolving and later chunks are never
read. -/
def radarRunChunksAux : List (ℕ × List ℕ) → RadarState → RadarState
  | [], st => st
  | e :: rest, st =>
    match radarChunkStep st e.1 e.2 with
    | some st' => radarRunChunksAux rest st'
    | none => st

/-- Run the serial loop over a sequence of timed chunks from the initial
state. -/
def radarRunChunks (chunks : List (ℕ × List ℕ)) : RadarState :=
  radarRunChunksAux chunks radarInit

/-- Feed the radar decoder `n` single zero bytes (pure garbage containing
no header), one decode attempt after each. -/
def radarZeroFeed (n : ℕ) : RadarState :=
  radarRunChunksAux (List.replicate n (0, [0])) radarInit

/-- An abstract well-formed radar frame: control byte, command byte and
payload. -/
structure RadarFrame where
  ctrl : ℕ
  cmd : ℕ
  payload : List ℕ
deriving DecidableEq

/-- The (ctrl, cmd) pairs `read_line` dispatches to a handler: heart
rate (0x85, 0x02), breath rate (0x81, 0x02), motion (0x80, 0x03). -/
def handledType (ctrl cmd : ℕ) : Bool :=
  (decide (ctrl = 0x85) && decide (cmd = 0x02))
    || (decide (ctrl = 0x81) && decide (cmd = 0x02))
    || (decide (ctrl = 0x80) && decide (cmd = 0x03))

/-- A frame whose dispatch cannot raise: either its type is not handled,
or its payload is nonempty so reading `payload[0]` succeeds. -/
def dispatchSafe (f : RadarFrame) : Bool :=
  !handledType f.ctrl f.cmd || !f.payload.isEmpty

/-- Wire encoding of a radar frame, per the layout decoded by
`read_line`: header, ctrl, cmd, big-endian length, payload, checksum of
header through payload, terminator. -/
def encodeFrame (f : RadarFrame) : List ℕ :=
  let hdr := [0x53, 0x59, f.ctrl, f.cmd, f.payload.length / 256, f.payload.length % 256]
  hdr ++ f.payload ++ [calcChecksum (hdr ++ f.payload), 0x54, 0x43]

/-- A byte stream of encoded frames interleaved with garbage segments:
`g₀ ++ enc f₁ ++ g₁ ++ … ++ enc fₙ ++ gEnd`. -/
def interleaved : List (List ℕ × RadarFrame) → List ℕ → List ℕ
  | [], gEnd => gEnd
  | (g, f) :: rest, gEnd => g ++ encodeFrame f ++ interleaved rest gEnd

/-- Garbage containing a spurious full header `53 59` whose declared
payload length (0x01FF… here bytes `00 01` then length bytes `FF FF`,
i.e. 65535) extends far past the end of the stream, followed by one valid
heart-rate frame. -/
def badStallStream : List ℕ :=
  [0x53, 0x59, 0, 1, 0xFF, 0xFF] ++ encodeFrame ⟨0x85, 0x02, [77]⟩

/-! ## VitalSignReader buffer management (`read_and_parse_data`) -/

/-- The chunk-feed step of `VitalSignReader.read_and_parse_data` (lines
around `max_buffer_size = 2 ** 15`): the incoming chunk is appended only
while the total stays below 2^15, otherwise the chunk is discarded and
the stored bytes are kept. -/
def vsrFeed (buf chunk : List ℕ) : List ℕ :=
  if buf.length + chunk.length < 32768 then buf ++ chunk else buf

/-! ## Range-profile TLV decoding (`VitalSignReader.read_and_parse_data`,
lines 271-280).  The Python loop emits `pow(re*re + im*im, 0.5)` per bin;
the embedding emits the radicand `re² + im²`, the magnitude being its
real square root. -/

/-- `int.from_bytes(buffer[i:i+2], byteorder='little')`: an UNSIGNED
little-endian 16-bit read (Python `int.from_bytes` is unsigned unless
`signed=True` is passed, which the source does not pass). -/
def le16 (bytes : List ℕ) (i : ℕ) : ℕ :=
  bytes.getD i 0 + 256 * bytes.getD (i + 1) 0

/-- Interpretation of two bytes at offset `i` as a little-endian SIGNED
16-bit integer.  This follows the claim wording (int16); the source reads
unsigned, so the two differ. -/
def le16AsInt16 (bytes : List ℕ) (i : ℕ) : ℤ :=
  let u := le16 bytes i
  if u < 32768 then (u : ℤ) else (u : ℤ) - 65536

/-- The `for i in range(self.num_range_bin_processed)` loop: starting at
byte offset `i`, read `n` pairs of little-endian 16-bit values and emit
the squared magnitude `re² + im²` per bin, advancing 4 bytes per bin. -/
def parseRangeProfileSq (bytes : List ℕ) : ℕ → ℕ → List ℕ
  | _, 0 => []
  | i, n + 1 =>
    (le16 bytes i ^ 2 + le16 bytes (i + 2) ^ 2)
      :: parseRangeProfileSq bytes (i + 4) n

/-- `num_range_bin_processed`: when the current packet carried a
vital-sign TLV, `rangeBinEndIndex - rangeBinStartIndex + 1` from it
(Python int arithmetic, clipped at zero by the empty `range`); otherwise
the value persisted from earlier packets (initialized to `33 - 11 + 1`). -/
def numRangeBin (vs : Option (ℕ × ℕ)) (persisted : ℕ) : ℕ :=
  match vs with
  | some se => ((se.2 : ℤ) - (se.1 : ℤ) + 1).toNat
  | none => persisted

/-- Full range-profile TLV decode: bin count from the most recent
vital-sign TLV (or the persisted count), squared magnitudes from the
payload bytes at offset `i`. -/
def decodeRangeProfileSq (bytes : List ℕ) (i : ℕ) (vs : Option (ℕ × ℕ))
    (persisted : ℕ) : List ℕ :=
  parseRangeProfileSq bytes i (numRangeBin vs persisted)

/-! ## Time-domain HRV (`HRVcalculate.compute_time`, src/HRVcalculate.py) -/

/-- The RR conversion of `compute_time`: on a full window (the last
`windowSize` heart-rate samples) build `rri = 60000 / hr` per sample as
exact rational division; `none` when the window is not yet full.  The
sdnn/rmssd statistics consume exactly this list. -/
def computeTimeRri (windowSize : ℕ) (heartRate : List ℕ) : Option (List ℚ) :=
  if windowSize ≤ heartRate.length then
    some ((heartRate.drop (heartRate.length - windowSize)).map
      fun h : ℕ => (60000 : ℚ) / (h : ℚ))
  else none

/-! ## PPG frequency-domain HRV (src/ppg.py) -/

/-- Running cumulative sums with accumulator `c`. -/
def cumSumFrom (c : ℚ) : List ℚ → List ℚ
  | [] => []
  | x :: r => (c + x) :: cumSumFrom (c + x) r

/-- `intervals_to_peaks_manual`: cumulative sums of the RR intervals. -/
def intervalsToPeaks (rr : List ℚ) : List ℚ := cumSumFrom 0 rr

/-- `np.diff`: successive differences. -/
def diffQ : List ℚ → List ℚ
  | a :: b :: r => (b - a) :: diffQ (b :: r)
  | _ => []

/-- Result dictionary of `hrv_frequency_manual`; `lfhf = none` models the
NaN stored for an undefined LF/HF quotient. -/
structure FreqDict where
  vlf : ℚ
  lf : ℚ
  hf : ℚ
  lfhf : Option ℚ
  total : ℚ
deriving DecidableEq

/-- The dictionary every early-exit branch of `hrv_frequency_manual`
returns: numeric zeros for VLF/LF/HF/TotalPower and NaN for LF/HF. -/
def zeroFreqDict : FreqDict := ⟨0, 0, 0, none, 0⟩

/-- Outcome of `hrv_frequency_manual`: an early-exit dictionary, or the
marker that control reached the scipy Welch computation (external
floating-point code, not embedded). -/
inductive FreqOut
  | dict (d : FreqDict)
  | welch
deriving DecidableEq

/-- Element count of `np.arange(a, b, step)` for positive `step`. -/
def arangeCount (a b step : ℚ) : ℕ :=
  if b ≤ a then 0 else (⌈(b - a) / step⌉).toNat

/-- Guard cascade of `hrv_frequency_manual` (src/ppg.py lines 23-74):
fewer than 4 peaks, an RR time span under 1 s, or fewer than 10 resampled
points each return the all-zero dictionary; otherwise control reaches the
Welch pipeline. -/
def hrvFrequencyManual (peaks : List ℚ) : FreqOut :=
  if peaks.length < 4 then .dict zeroFreqDict
  else
    let rrS := (diffQ peaks).map (· / 1000)
    let rrTime := (cumSumFrom 0 rrS).map (· - rrS.headD 0)
    if rrTime.length < 4 ∨ rrTime.getLastD 0 - rrTime.headD 0 < 1 then .dict zeroFreqDict
    else if arangeCount (rrTime.headD 0) (rrTime.getLastD 0) (1/4) < 10 then
      .dict zeroFreqDict
    else .welch

/-- Arithmetic mean. -/
def meanQ (l : List ℚ) : ℚ := l.sum / l.length

/-- Population variance; `np.std(l) < 0.01` is equivalent to
`varianceQ l < 1/10000`. -/
def varianceQ (l : List ℚ) : ℚ := ((l.map fun x => (x - meanQ l) ^ 2).sum) / l.length

/-- `PPG.HRV` up to the `hrv_frequency_manual` call: `none` models the
early `return None` paths (window shorter than 10 RR values, near-zero
variability, non-positive or over-3000 values); otherwise the frequency
analysis runs on the cumulative-sum peaks. -/
def ppgHRV (rra : List ℚ) : Option FreqOut :=
  if rra.length < 10 then none
  else if varianceQ rra < 1 / 10000 then none
  else if (rra.any fun x => decide (x ≤ 0)) || (rra.any fun x => decide (3000 < x)) then none
  else some (hrvFrequencyManual (intervalsToPeaks rra))

/-- `np.trapz(psd_band, freqs_band)`: trapezoid rule over (frequency,
psd) sample pairs. -/
def trapzQ : List (ℚ × ℚ) → ℚ
  | a :: b :: r => (b.1 - a.1) * (a.2 + b.2) / 2 + trapzQ (b :: r)
  | _ => 0

/-- `calculate_band_power(freqs, psd, band)` from `hrv_frequency_manual`:
keep samples with `lo ≤ f < hi`; fewer than two selected samples yield 0,
else trapezoidal integration of the PSD over the band. -/
def calculateBandPower (fp : List (ℚ × ℚ)) (lo hi : ℚ) : ℚ :=
  let band := fp.filter fun p => decide (lo ≤ p.1) && decide (p.1 < hi)
  if band.length < 2 then 0 else trapzQ band

/-- The publication clamp of `PPG.HRV` (src/ppg.py lines 242-250): a band
power below 1 is stored as is, anything else is replaced by 0. -/
def clampUnit (x : ℚ) : ℚ := if x < 1 then x else 0

/-- Value stored into `PPG.LF` when the Welch pipeline ran, as a function
of the (frequency, psd) samples scipy returned: LF band `[0.04, 0.15)`. -/
def publishLF (fp : List (ℚ × ℚ)) : ℚ :=
  clampUnit (calculateBandPower fp (4/100) (15/100))

/-- Value stored into `PPG.HF`: HF band `[0.15, 0.4)`. -/
def publishHF (fp : List (ℚ × ℚ)) : ℚ :=
  clampUnit (calculateBandPower fp (15/100) (4/10))

/-! ## State-behavior workers (src/demo.py)

Each worker runs on its own thread; its observable environment at a
scheduler tick is the current FSM state plus the levitation and
music-mixer flags.  Traces record `(tick, command)` pairs for every
actuator command the worker issues. -/

/-- Environment visible to a worker at one tick. -/
structure WEnv where
  st : DotState
  lev : Bool
  busy : Bool
deriving DecidableEq

/-- Actuator commands issued through the BLE peripheral and the mixer. -/
inductive ACmd
  | modeSet (n : ℕ)
  | shakeSet (n : ℕ)
  | messageE1
  | musicStop
deriving DecidableEq

/-- The wait loop of `dot.music` at 0.1 s ticks: while the mixer is busy,
stop on levitation or on exhausting the max duration (the fuel), else
send the keep-alive `E=1` message each tick.  Returns the issued commands
and the exit tick. -/
def musicLoop (env : ℕ → WEnv) : ℕ → ℕ → List (ℕ × ACmd) × ℕ
  | t, 0 => if (env t).busy then ([(t, .musicStop)], t) else ([], t)
  | t, fuel + 1 =>
    if !(env t).busy then ([], t)
    else if (env t).lev then ([(t, .musicStop)], t)
    else
      let r := musicLoop env (t + 1) fuel
      ((t, .messageE1) :: r.1, r.2)

/-- Worker body of the `guiding_fatigue` state (`fatigue_breath_guide`)
at 0.1 s ticks: sleep 1 s, light mode 1, sleep 1 s, vibration 4, play the
breath audio (max 180 s = 1800 ticks), then light mode 3, sleep 0.5 s,
vibration off.  No step consults the FSM state. -/
def fatigueTrace (env : ℕ → WEnv) : List (ℕ × ACmd) :=
  let m := musicLoop env 20 1800
  [(10, .modeSet 1), (20, .shakeSet 4)] ++ m.1
    ++ [(m.2, .modeSet 3), (m.2 + 5, .shakeSet 0)]

/-- Exit tick of the wait loop shared (up to constants) by `dot.mode1`,
`dot.mode2` and `dot.mode3`: from tick `t`, keep sleeping while not
levitating and the FSM state still equals the worker's own state `own`,
for at most the remaining duration (fuel). -/
def modeWaitExit (own : DotState) (env : ℕ → WEnv) : ℕ → ℕ → ℕ
  | t, 0 => t
  | t, fuel + 1 =>
    if !(env t).lev ∧ (env t).st = own then modeWaitExit own env (t + 1) fuel
    else t

/-- Worker body of `guiding_mode1` (`dot.mode1`) at 0.5 s ticks: light
mode 7, sleep, vibration 2, the wait loop (10 s duration = 19 remaining
ticks), vibration off; it then raises `enter_idle` or `guide_finished`. -/
def mode1Trace (env : ℕ → WEnv) : List (ℕ × ACmd) :=
  let e := modeWaitExit .guidingMode1 env 1 19
  [(0, .modeSet 7), (1, .shakeSet 2), (e, .shakeSet 0)]

/-- Worker body of `guiding_mode2` (`dot.mode2`) at 0.5 s ticks: light
mode 2, sleep, vibration 1, the wait loop (8 s duration = 15 remaining
ticks), vibration off; it then raises `enter_idle` or `guide_finished`. -/
def mode2Trace (env : ℕ → WEnv) : List (ℕ × ACmd) :=
  let e := modeWaitExit .guidingMode2 env 1 15
  [(0, .modeSet 2), (1, .shakeSet 1), (e, .shakeSet 0)]

/-- Worker body of `guiding_mode3` (`dot.mode3`) at 0.25 s ticks (its
loop sleeps 0.25 s): light mode 4, sleep 0.5 s (2 ticks), vibration 3,
the wait loop (12 s duration = 46 remaining ticks), vibration off; it
then raises `enter_idle` or `guide_finished`. -/
def mode3Trace (env : ℕ → WEnv) : List (ℕ × ACmd) :=
  let e := modeWaitExit .guidingMode3 env 2 46
  [(0, .modeSet 4), (2, .shakeSet 3), (e, .shakeSet 0)]

/-- The worker routines the `on_enter` handlers hand to
`threading.Thread(target=...)`. -/
inductive WorkerId
  | waitingLoop | engagedLoop | fatigueGuide | mode1W | mode2W | mode3W | deskIdleW
deriving DecidableEq

/-- One statement of an `on_enter` handler body that affects execution
context: spawning a daemon worker thread, or running a routine inline on
the transition thread. -/
inductive EnterAct
  | spawnThread (w : WorkerId)
  | inlineRoutine
deriving DecidableEq

/-- Embedding of the `on_enter` handler bodies of demo.py: `booting` has
no handler; `_enter_baseline` runs its whole routine inline on the
transition thread; `_enter_waiting`, `_enter_engaged`,
`_enter_guiding_fatigue`, `_enter_guiding_mode1/2/3` and
`_enter_desk_idle_mode` each consist of a single
`threading.Thread(target=..., daemon=True).start()`. -/
def onEnterActions : DotState → List EnterAct
  | .booting => []
  | .baseline => [.inlineRoutine]
  | .waiting => [.spawnThread .waitingLoop]
  | .engaged => [.spawnThread .engagedLoop]
  | .guidingFatigue => [.spawnThread .fatigueGuide]
  | .guidingMode1 => [.spawnThread .mode1W]
  | .guidingMode2 => [.spawnThread .mode2W]
  | .guidingMode3 => [.spawnThread .mode3W]
  | .deskIdle => [.spawnThread .deskIdleW]

/-- Whether an enter action spawns a worker thread. -/
def EnterAct.isSpawn : EnterAct → Bool
  | .spawnThread _ => true
  | .inlineRoutine => false

/-- Number of worker threads an `on_enter` handler spawns, computed from
the handler embedding. -/
def enterSpawnCount (s : DotState) : ℕ :=
  (onEnterActions s).countP EnterAct.isSpawn

/-- The discipline asserted by the claim: every actuator command of the
worker trace is issued at a tick where the FSM state equals the worker's
own state, for every environment interleaving. -/
def checksOwnState (own : DotState) (trace : (ℕ → WEnv) → List (ℕ × ACmd)) : Prop :=
  ∀ (env : ℕ → WEnv) (tc : ℕ × ACmd), tc ∈ trace env → (env tc.1).st = own

/-! # Theorems -/

/-- C4: a complete 10-byte BLE frame `[0xFF, h, s, d, r1, r2, r3, v, g, p]`
fed to the decoder appends `h` to the heart-rate stream when
`50 ≤ h ≤ 190` and appends `0` otherwise. -/
theorem ble_hr_clamp (h s d r1 r2 r3 v g p : ℕ) :
    (notificationHandler bleInit [255, h, s, d, r1, r2, r3, v, g, p]).hr
      = [if 50 ≤ h ∧ h ≤ 190 then h else 0] := by
  simp only [notificationHandler, bleInit, List.nil_append, List.length_cons,
    List.length_nil, bleParseLoop, findByte, if_true, ge_iff_le]
  norm_num [bleProcessFrame, pushCap, extendCap, bleParseLoop]
  split
  · rename_i hcl
    rw [if_neg]
    omega
  · rename_i hcl
    rw [if_pos]
    omega

/-- C6: raising a transition event whose declared source states do not
include the current state is silently ignored: the state is unchanged and
no `MachineError` escapes. -/
theorem fsm_invalid_trigger_noop (s : DotState) (e : Trigger)
    (h : s ∉ declaredSources e) : fireEvent s e = .ok s := by
  unfold fireEvent
  have hnone :
      transitionTable.find? (fun r => decide (r.trigger = e ∧ s ∈ r.source)) = none := by
    rw [List.find?_eq_none]
    intro r hr
    simp only [decide_eq_true_eq, not_and]
    intro he hs
    exact absurd (List.mem_flatMap.mpr
      ⟨r, List.mem_filter.mpr ⟨hr, by simp [he]⟩, hs⟩) h
  rw [hnone]
  rfl

/-- Witness for C6: `need_fatigue` raised in state `waiting` (not a
declared source) leaves the state at `waiting`. -/
theorem fsm_invalid_trigger_noop_witness :
    DotState.waiting ∉ declaredSources Trigger.needFatigue ∧
      fireEvent .waiting .needFatigue = .ok .waiting :=
  ⟨by decide, fsm_invalid_trigger_noop .waiting .needFatigue (by decide)⟩

/-- C2 counterexample: a window of three RR intervals (three peaks after
cumulative summation, fewer than 4) makes `hrv_frequency_manual` return
the all-zero dictionary — LF and HF are the numeric 0, not an absent
result. -/
theorem hrv_zero_dict_cex :
    hrvFrequencyManual (intervalsToPeaks [800, 810, 790]) = .dict zeroFreqDict ∧
      zeroFreqDict.lf = 0 ∧ zeroFreqDict.hf = 0 := by decide

/-- C2 amended: on fewer than 4 peaks `hrv_frequency_manual` returns the
sentinel dictionary with numeric zero LF/HF and NaN LF-over-HF rather
than an absent value; separately, the `PPG.HRV` publishing path returns
`None` before ever calling it when the RR window holds fewer than 10
values. -/
theorem hrv_absence_amended :
    (∀ peaks : List ℚ, peaks.length < 4 →
        hrvFrequencyManual peaks = .dict zeroFreqDict) ∧
      ∀ rra : List ℚ, rra.length < 10 → ppgHRV rra = none := by
  constructor
  · intro peaks hlen
    unfold hrvFrequencyManual
    rw [if_pos hlen]
  · intro rra hlen
    unfold ppgHRV
    rw [if_pos hlen]

/-- Witness for the amended C2 at concrete inputs. -/
theorem hrv_absence_amended_witness :
    hrvFrequencyManual [1, 2, 3] = .dict zeroFreqDict ∧ ppgHRV [500] = none :=
  ⟨hrv_absence_amended.1 [1, 2, 3] (by decide),
   hrv_absence_amended.2 [500] (by decide)⟩

lemma trapzQ_nonneg : ∀ l : List (ℚ × ℚ), l.Pairwise (fun a b => a.1 ≤ b.1) →
    (∀ p ∈ l, 0 ≤ p.2) → 0 ≤ trapzQ l
  | [], _, _ => le_refl 0
  | [_], _, _ => le_refl 0
  | a :: b :: r, hp, hpos => by
    have hab : a.1 ≤ b.1 := (List.pairwise_cons.mp hp).1 b (by simp)
    have ha2 : 0 ≤ a.2 := hpos a (by simp)
    have hb2 : 0 ≤ b.2 := hpos b (by simp)
    have htl : 0 ≤ trapzQ (b :: r) :=
      trapzQ_nonneg (b :: r) (List.pairwise_cons.mp hp).2
        (fun p hmem => hpos p (List.mem_cons_of_mem a hmem))
    have hhd : 0 ≤ (b.1 - a.1) * (a.2 + b.2) / 2 := by
      apply div_nonneg _ (by norm_num)
      exact mul_nonneg (by linarith) (by linarith)
    unfold trapzQ
    linarith

lemma calculateBandPower_nonneg (fp : List (ℚ × ℚ)) (lo hi : ℚ)
    (hmono : fp.Pairwise fun a b => a.1 ≤ b.1) (hpos : ∀ p ∈ fp, 0 ≤ p.2) :
    0 ≤ calculateBandPower fp lo hi := by
  simp only [calculateBandPower]
  split
  · exact le_refl 0
  · exact trapzQ_nonneg _ (hmono.filter _)
      (fun p hmem => hpos p (List.mem_of_mem_filter hmem))

lemma clampUnit_range (x : ℚ) (hx : 0 ≤ x) : 0 ≤ clampUnit x ∧ clampUnit x < 1 := by
  unfold clampUnit
  split
  · exact ⟨hx, by assumption⟩
  · exact ⟨le_refl 0, by norm_num⟩

/-- C9: for any Welch PSD output (nonnegative power samples over
nondecreasing frequencies), the values `PPG.HRV` publishes into `PPG.LF`
and `PPG.HF` lie in `[0, 1)`: the band power is nonnegative and the
publication clamp replaces anything at or above 1 by 0. -/
theorem ppg_lf_hf_unit_interval (fp : List (ℚ × ℚ))
    (hmono : fp.Pairwise fun a b => a.1 ≤ b.1)
    (hpos : ∀ p ∈ fp, 0 ≤ p.2) :
    (0 ≤ publishLF fp ∧ publishLF fp < 1) ∧
      (0 ≤ publishHF fp ∧ publishHF fp < 1) :=
  ⟨clampUnit_range _ (calculateBandPower_nonneg fp _ _ hmono hpos),
   clampUnit_range _ (calculateBandPower_nonneg fp _ _ hmono hpos)⟩

/-- Witness for C9 on a concrete three-sample PSD. -/
theorem ppg_lf_hf_unit_interval_witness :
    (0 ≤ publishLF [((5:ℚ)/100, 2), (1/10, 3), (2/10, 5)] ∧
        publishLF [((5:ℚ)/100, 2), (1/10, 3), (2/10, 5)] < 1) ∧
      (0 ≤ publishHF [((5:ℚ)/100, 2), (1/10, 3), (2/10, 5)] ∧
        publishHF [((5:ℚ)/100, 2), (1/10, 3), (2/10, 5)] < 1) :=
  ppg_lf_hf_unit_interval _
    (by norm_num [List.Pairwise])
    (by intro p hp; fin_cases hp <;> norm_num)

lemma parseRangeProfileSq_length (bytes : List ℕ) :
    ∀ (n i : ℕ), (parseRangeProfileSq bytes i n).length = n
  | 0, _ => rfl
  | n + 1, i => by
    unfold parseRangeProfileSq
    rw [List.length_cons, parseRangeProfileSq_length bytes n (i + 4)]

lemma parseRangeProfileSq_getD (bytes : List ℕ) :
    ∀ (n i k : ℕ), k < n →
      (parseRangeProfileSq bytes i n).getD k 0
        = le16 bytes (i + 4 * k) ^ 2 + le16 bytes (i + 4 * k + 2) ^ 2
  | 0, _, k, hk => absurd hk (Nat.not_lt_zero k)
  | n + 1, i, 0, _ => by simp [parseRangeProfileSq]
  | n + 1, i, k + 1, hk => by
    unfold parseRangeProfileSq
    rw [List.getD_cons_succ, parseRangeProfileSq_getD bytes n (i + 4) k (by omega)]
    ring_nf

/-- C7 counterexample: the byte pair `FF FF` decodes to 65535 (unsigned)
in the source, not to the int16 value -1 the claim asserts; the emitted
magnitude for the pair (`FF FF`, `00 00`) is sqrt(65535²) = 65535, while
the int16 reading would give sqrt((-1)² + 0²) = 1. -/
theorem range_profile_int16_cex :
    parseRangeProfileSq [0xFF, 0xFF, 0, 0] 0 1 = [4294836225] ∧
      le16AsInt16 [0xFF, 0xFF, 0, 0] 0 ^ 2 + le16AsInt16 [0xFF, 0xFF, 0, 0] 2 ^ 2 = 1 ∧
      Real.sqrt 4294836225 ≠ Real.sqrt 1 := by
  refine ⟨by decide, by decide, ?_⟩
  have h1 : Real.sqrt 4294836225 = 65535 := by
    rw [show (4294836225 : ℝ) = 65535 ^ 2 by norm_num, Real.sqrt_sq (by norm_num)]
  rw [h1, Real.sqrt_one]
  norm_num

/-- C7 amended: a range-profile TLV emits exactly
`rangeBinEndIndex - rangeBinStartIndex + 1` values when the packet
carried a vital-sign TLV (and the persisted count otherwise), and the
k-th emitted squared magnitude is `re² + im²` of the k-th little-endian
UNSIGNED 16-bit pair of the payload. -/
theorem range_profile_amended (bytes : List ℕ) (i s e persisted : ℕ)
    (hse : s ≤ e) :
    (decodeRangeProfileSq bytes i (some (s, e)) persisted).length = e - s + 1 ∧
      (decodeRangeProfileSq bytes i none persisted).length = persisted ∧
      ∀ k, k < e - s + 1 →
        (decodeRangeProfileSq bytes i (some (s, e)) persisted).getD k 0
          = le16 bytes (i + 4 * k) ^ 2 + le16 bytes (i + 4 * k + 2) ^ 2 := by
  have hnum : numRangeBin (some (s, e)) persisted = e - s + 1 := by
    simp only [numRangeBin]
    omega
  refine ⟨?_, ?_, ?_⟩
  · unfold decodeRangeProfileSq
    rw [hnum, parseRangeProfileSq_length]
  · simp only [decodeRangeProfileSq, numRangeBin]
    rw [parseRangeProfileSq_length]
  · intro k hk
    unfold decodeRangeProfileSq
    rw [hnum]
    exact parseRangeProfileSq_getD bytes _ i k hk

/-- Witness for the amended C7 on a concrete payload and bin indices. -/
theorem range_profile_amended_witness :
    (decodeRangeProfileSq [1, 0, 2, 0, 3, 0, 4, 0] 0 (some (11, 12)) 23).length = 12 - 11 + 1 ∧
      (decodeRangeProfileSq [1, 0, 2, 0, 3, 0, 4, 0] 0 none 23).length = 23 ∧
      ∀ k, k < 12 - 11 + 1 →
        (decodeRangeProfileSq [1, 0, 2, 0, 3, 0, 4, 0] 0 (some (11, 12)) 23).getD k 0
          = le16 [1, 0, 2, 0, 3, 0, 4, 0] (0 + 4 * k) ^ 2
            + le16 [1, 0, 2, 0, 3, 0, 4, 0] (0 + 4 * k + 2) ^ 2 :=
  range_profile_amended [1, 0, 2, 0, 3, 0, 4, 0] 0 11 12 23 (by decide)

lemma preprocess_eq (st : RadarState) (now : ℕ) (hr br motion rr : Option ℕ) :
    preprocessData st now hr br motion rr = (st, false) ∨
      preprocessData st now hr br motion rr = (st, true) ∨
      preprocessData st now hr br motion rr = ({ st with lastHrTime := some now }, true) := by
  unfold preprocessData
  by_cases h0 : rr = some 0
  · exact Or.inl (by simp [h0])
  · simp only [h0, if_false]
    by_cases h1 : st.lastHrTime = none
    · cases hr with
      | none => right; right; simp [h1]
      | some v =>
        by_cases hv : v = 0
        · right; right; simp [h1, hv]
        · right; right; simp [h1, hv]
    · cases hr with
      | none => right; left; simp [h1]
      | some v =>
        by_cases hv : v = 0
        · right; left; simp [h1, hv]
        · right; right; simp [h1, hv]

lemma dispatch_some_lastHrTime {st st' : RadarState} {now c m : ℕ} {p : List ℕ}
    (h : radarDispatch st now c m p = some st') :
    st'.lastHrTime = st.lastHrTime ∨ st'.lastHrTime = some now := by
  unfold radarDispatch at h
  split at h
  · cases hp : p.head? with
    | none =>
      rw [hp] at h
      exact Option.noConfusion h
    | some v =>
      simp only [hp] at h
      rcases preprocess_eq st now (some v) none none none with h2 | h2 | h2 <;>
          simp only [h2] at h <;> split at h <;>
        (rw [Option.some_inj] at h; subst h; simp)
  · split at h
    · cases hp : p.head? with
      | none =>
      rw [hp] at h
      exact Option.noConfusion h
      | some v =>
        simp only [hp] at h
        rcases preprocess_eq st now none (some v) none none with h2 | h2 | h2 <;>
            simp only [h2] at h <;> split at h <;>
          (rw [Option.some_inj] at h; subst h; simp)
    · split at h
      · cases hp : p.head? with
        | none =>
      rw [hp] at h
      exact Option.noConfusion h
        | some v =>
          simp only [hp] at h
          rcases preprocess_eq st now none none (some v) none with h2 | h2 | h2 <;>
              simp only [h2] at h <;> split at h <;>
            (rw [Option.some_inj] at h; subst h; simp)
      · rw [Option.some_inj] at h
        subst h
        exact Or.inl rfl

/-- C8 counterexample: the very first processed frame of any kind
initializes `_last_hr_time`; here a single breath-rate frame at time 10
makes the presence computation true at time 11 although no nonzero
heart-rate sample was ever recorded (the heart-rate buffer is empty). -/
theorem presence_without_hr_cex :
    presenceHere (radarRunFrames [⟨10, 0x81, 0x02, [15]⟩]) 11 = true ∧
      (radarRunFrames [⟨10, 0x81, 0x02, [15]⟩]).heartRate = [] := by decide

/-- C8 amended: presence is computed on demand as
`now - lastHrTime < 8` (timestamp defaulting to 0); the timestamp is
refreshed by every processed nonzero heart-rate frame, but it is also
initialized by the first processed frame of any kind, so presence being
true only guarantees that SOME frame was processed within the window (or
that no frame was ever processed and `now < 8`). -/
lemma runFramesAux_lastHrTime : ∀ (l : List RFrameEvt) (st : RadarState),
    (radarRunFramesAux l st).lastHrTime = st.lastHrTime ∨
      ∃ e ∈ l, (radarRunFramesAux l st).lastHrTime = some e.time
  | [], _ => Or.inl rfl
  | a :: l, st => by
    unfold radarRunFramesAux
    cases hd : radarDispatch st a.time a.ctrl a.cmd a.payload with
    | none => exact Or.inl rfl
    | some st' =>
      rcases runFramesAux_lastHrTime l st' with h | ⟨e, he, hm⟩
      · rcases dispatch_some_lastHrTime hd with h2 | h2
        · exact Or.inl (h.trans h2)
        · exact Or.inr ⟨a, by simp, h.trans h2⟩
      · exact Or.inr ⟨e, List.mem_cons_of_mem a he, hm⟩

theorem presence_freshness_amended :
    (∀ (st : RadarState) (t v : ℕ) (p : List ℕ), v ≠ 0 →
        ∃ st', radarDispatch st t 0x85 0x02 (v :: p) = some st' ∧
          st'.lastHrTime = some t) ∧
      ∀ (trace : List RFrameEvt) (now : ℕ),
        presenceHere (radarRunFrames trace) now = true →
        (∃ e ∈ trace, now - e.time < 8) ∨
          ((radarRunFrames trace).lastHrTime = none ∧ now < 8) := by
  constructor
  · intro st t v p hv
    unfold radarDispatch preprocessData
    by_cases h1 : st.lastHrTime = none <;>
      simp [h1, hv]
  · intro trace now hp
    rcases runFramesAux_lastHrTime trace radarInit with h | ⟨e, he, hm⟩
    · right
      refine ⟨h, ?_⟩
      unfold presenceHere at hp
      unfold radarRunFrames at hp
      rw [h] at hp
      simpa using hp
    · left
      refine ⟨e, he, ?_⟩
      unfold presenceHere at hp
      unfold radarRunFrames at hp
      rw [hm] at hp
      simpa using hp

/-- Witness for the amended C8: a nonzero heart-rate frame at time 5 sets
the timestamp (and its dispatch does not raise), and presence evaluated
at time 6 traces back to a frame within the window. -/
theorem presence_freshness_amended_witness :
    (∃ st', radarDispatch radarInit 5 0x85 0x02 [70] = some st' ∧
        st'.lastHrTime = some 5) ∧
      ((∃ e ∈ [(⟨5, 0x85, 0x02, [70]⟩ : RFrameEvt)], (6 : ℕ) - e.time < 8) ∨
        ((radarRunFrames [⟨5, 0x85, 0x02, [70]⟩]).lastHrTime = none ∧ (6 : ℕ) < 8)) :=
  ⟨presence_freshness_amended.1 radarInit 5 70 [] (by decide),
   presence_freshness_amended.2 [⟨5, 0x85, 0x02, [70]⟩] 6 (by decide)⟩

/-- C5 counterexample: under an interleaving where the FSM has already
left `guiding_fatigue` (the state reads `waiting` at every tick), the
fatigue worker still issues the light command mode 1 at tick 10 — it
issues its actuator commands without ever checking the controller
state. -/
theorem worker_state_check_cex :
    ¬ checksOwnState .guidingFatigue fatigueTrace := by
  intro h
  have hcmd := h (fun _ => ⟨.waiting, false, false⟩) (10, .modeSet 1) (by decide)
  exact absurd hcmd (by decide)

lemma musicLoop_congr (env env' : ℕ → WEnv)
    (h : ∀ t, (env t).lev = (env' t).lev ∧ (env t).busy = (env' t).busy) :
    ∀ (fuel t : ℕ), musicLoop env t fuel = musicLoop env' t fuel
  | 0, t => by unfold musicLoop; rw [(h t).2]
  | fuel + 1, t => by
    unfold musicLoop
    rw [(h t).1, (h t).2, musicLoop_congr env env' h fuel (t + 1)]

/-- C5 amended: each non-booting, non-baseline `on_enter` handler spawns
exactly one worker thread (booting has no handler, `_enter_baseline`
runs inline); the shared wait loop of the mode1/mode2/mode3 workers
polls the FSM state — it exits immediately once the state differs from
the worker's own state and keeps waiting only at ticks where the state
still matches; yet each of those workers issues its opening light and
vibration commands and its closing vibration-off command under every
environment, state checked or not, and the guiding-fatigue worker trace
is entirely independent of the FSM state. -/
theorem worker_state_polling_amended :
    (∀ (own : DotState) (env : ℕ → WEnv) (t fuel : ℕ),
        (env t).st ≠ own → modeWaitExit own env t fuel = t) ∧
      (∀ (own : DotState) (env : ℕ → WEnv) (t fuel u : ℕ), t ≤ u →
        u < modeWaitExit own env t fuel →
        (env u).lev = false ∧ (env u).st = own) ∧
      (∀ env : ℕ → WEnv,
        (0, ACmd.modeSet 7) ∈ mode1Trace env ∧ (1, ACmd.shakeSet 2) ∈ mode1Trace env ∧
          (modeWaitExit .guidingMode1 env 1 19, ACmd.shakeSet 0) ∈ mode1Trace env) ∧
      (∀ env : ℕ → WEnv,
        (0, ACmd.modeSet 2) ∈ mode2Trace env ∧ (1, ACmd.shakeSet 1) ∈ mode2Trace env ∧
          (modeWaitExit .guidingMode2 env 1 15, ACmd.shakeSet 0) ∈ mode2Trace env) ∧
      (∀ env : ℕ → WEnv,
        (0, ACmd.modeSet 4) ∈ mode3Trace env ∧ (2, ACmd.shakeSet 3) ∈ mode3Trace env ∧
          (modeWaitExit .guidingMode3 env 2 46, ACmd.shakeSet 0) ∈ mode3Trace env) ∧
      (∀ env env' : ℕ → WEnv,
        (∀ t, (env t).lev = (env' t).lev ∧ (env t).busy = (env' t).busy) →
        fatigueTrace env = fatigueTrace env') ∧
      (enterSpawnCount .booting = 0 ∧ enterSpawnCount .baseline = 0 ∧
        ∀ s : DotState, s ≠ .booting → s ≠ .baseline → enterSpawnCount s = 1) := by
  refine ⟨?_, ?_, ?_, ?_, ?_, ?_, rfl, rfl, ?_⟩
  · intro own env t fuel hne
    cases fuel with
    | zero => rfl
    | succ fuel =>
      unfold modeWaitExit
      rw [if_neg]
      intro hc
      exact hne hc.2
  · intro own env t fuel
    induction fuel generalizing t with
    | zero =>
      intro u htu hu
      unfold modeWaitExit at hu
      omega
    | succ fuel ih =>
      intro u htu hu
      unfold modeWaitExit at hu
      by_cases hc : (!(env t).lev) = true ∧ (env t).st = own
      · rw [if_pos hc] at hu
        rcases Nat.eq_or_lt_of_le htu with heq | hlt
        · subst heq
          exact ⟨by simpa using hc.1, hc.2⟩
        · exact ih (t + 1) u hlt hu
      · rw [if_neg hc] at hu
        omega
  · intro env
    refine ⟨?_, ?_, ?_⟩ <;> simp [mode1Trace]
  · intro env
    refine ⟨?_, ?_, ?_⟩ <;> simp [mode2Trace]
  · intro env
    refine ⟨?_, ?_, ?_⟩ <;> simp [mode3Trace]
  · intro env env' hagree
    unfold fatigueTrace
    rw [musicLoop_congr env env' hagree 1800 20]
  · intro s hb hbl
    cases s <;> first | rfl | exact absurd rfl hb | exact absurd rfl hbl

/-- Witness for the amended C5 at concrete environments. -/
theorem worker_state_polling_amended_witness :
    modeWaitExit .guidingMode1 (fun _ => ⟨.waiting, false, false⟩) 3 5 = 3 ∧
      (((fun _ => (⟨.guidingMode2, false, false⟩ : WEnv)) 1).lev = false ∧
        ((fun _ => (⟨.guidingMode2, false, false⟩ : WEnv)) 1).st = .guidingMode2) ∧
      fatigueTrace (fun _ => ⟨.waiting, false, false⟩)
        = fatigueTrace (fun _ => ⟨.engaged, false, false⟩) ∧
      enterSpawnCount .engaged = 1 :=
  ⟨worker_state_polling_amended.1 .guidingMode1 _ 3 5 (by decide),
   worker_state_polling_amended.2.1 .guidingMode2
     (fun _ => ⟨.guidingMode2, false, false⟩) 0 15 1 (by decide) (by decide),
   worker_state_polling_amended.2.2.2.2.2.1 _ _ (fun _ => ⟨rfl, rfl⟩),
   worker_state_polling_amended.2.2.2.2.2.2.2.2 .engaged (by decide) (by decide)⟩

lemma magicFree_replicate_zero : ∀ n, magicFree (List.replicate n 0) = true
  | 0 => rfl
  | 1 => rfl
  | n + 2 => by
    show magicFree (0 :: 0 :: List.replicate n 0) = true
    unfold magicFree
    rw [show (0 :: List.replicate n 0) = List.replicate (n + 1) 0 from rfl,
      magicFree_replicate_zero (n + 1)]
    simp

lemma findMagic_eq_none : ∀ l : List ℕ, magicFree l = true → findMagic l = none
  | [], _ => rfl
  | [_], _ => rfl
  | a :: b :: r, h => by
    unfold magicFree at h
    rw [Bool.and_eq_true] at h
    have hne : ¬(a = 0x53 ∧ b = 0x59) := by
      have h1 := h.1
      rwa [Bool.not_eq_true', decide_eq_false_iff_not] at h1
    unfold findMagic
    rw [if_neg hne, findMagic_eq_none (b :: r) h.2]
    rfl

lemma radarPoll_none_of_magicFree (buf : List ℕ) (h : magicFree buf = true) :
    radarPoll buf = (none, buf) := by
  unfold radarPoll
  rw [findMagic_eq_none buf h]

lemma radarRunChunksAux_zeros :
    ∀ (n k : ℕ), radarRunChunksAux (List.replicate n (0, [0]))
        { radarInit with buffer := List.replicate k 0 }
      = { radarInit with buffer := List.replicate (k + n) 0 }
  | 0, k => by
    rw [List.replicate_zero]
    unfold radarRunChunksAux
    rw [Nat.add_zero]
  | n + 1, k => by
    rw [List.replicate_succ]
    unfold radarRunChunksAux
    have hstep : radarChunkStep { radarInit with buffer := List.replicate k 0 } 0 [0]
        = some { radarInit with buffer := List.replicate (k + 1) 0 } := by
      unfold radarChunkStep radarStep
      rw [if_neg (List.cons_ne_nil 0 [])]
      dsimp only
      rw [show List.replicate k 0 ++ [0] = List.replicate (k + 1) 0 from
        (List.replicate_succ' k 0).symm]
      rw [radarPoll_none_of_magicFree _ (magicFree_replicate_zero (k + 1))]
      rfl
    rw [hstep]
    show radarRunChunksAux (List.replicate n (0, [0]))
        { radarInit with buffer := List.replicate (k + 1) 0 }
      = { radarInit with buffer := List.replicate (k + (n + 1)) 0 }
    rw [radarRunChunksAux_zeros n (k + 1)]
    rw [show k + 1 + n = k + (n + 1) from by omega]

lemma radarZeroFeed_eq :
    ∀ n, radarZeroFeed n = { radarInit with buffer := List.replicate n 0 } := by
  intro n
  unfold radarZeroFeed
  have h := radarRunChunksAux_zeros n 0
  rw [show ({ radarInit with buffer := List.replicate 0 0 } : RadarState)
      = radarInit from rfl] at h
  rw [h, Nat.zero_add]

lemma bleProcessFrame_buffer (st : BleState) (f : List ℕ) :
    (bleProcessFrame st f).receiveBuffer = st.receiveBuffer := by
  unfold bleProcessFrame
  split <;> rfl

lemma bleParseLoop_bound : ∀ (fuel : ℕ) (st : BleState),
    st.receiveBuffer.length < 10 * fuel →
    (bleParseLoop st fuel).receiveBuffer.length < 10
  | 0, _, h => by omega
  | fuel + 1, st, h => by
    rw [bleParseLoop]
    split
    · cases hfind : findByte 255 st.receiveBuffer with
      | none => simp
      | some hi =>
        simp only [bleProcessFrame_buffer]
        split
        · apply bleParseLoop_bound fuel
          simp only [bleProcessFrame_buffer, List.length_drop]
          omega
        · rename_i hshort
          simp only [List.length_drop] at hshort ⊢
          omega
    · omega

lemma notificationHandler_bound (st : BleState) (data : List ℕ) :
    (notificationHandler st data).receiveBuffer.length < 10 := by
  unfold notificationHandler
  exact bleParseLoop_bound _ _ (by omega)

lemma vsrFold_bound : ∀ (chunks : List (List ℕ)) (buf : List ℕ),
    buf.length < 32768 → (chunks.foldl vsrFeed buf).length < 32768
  | [], _, h => h
  | c :: cs, buf, h => by
    rw [List.foldl_cons]
    apply vsrFold_bound cs
    unfold vsrFeed
    by_cases hc : buf.length + c.length < 32768
    · rw [if_pos hc]
      simpa using hc
    · rw [if_neg hc]
      exact h

/-- C3 counterexample: the micRadar serial decoder has no safety cap.
After 32770 single-byte feed/decode steps of magic-free garbage the
buffer holds all 32770 bytes, exceeding the only cap in the sources
(2^15 in VitalSignReader) plus a one-byte feed chunk, and was never
dropped. -/
theorem radar_buffer_unbounded_cex :
    (radarZeroFeed 32770).buffer.length = 32770 ∧ 32768 + 1 < 32770 := by
  refine ⟨?_, by norm_num⟩
  rw [radarZeroFeed_eq]
  show (List.replicate 32770 0).length = 32770
  rw [List.length_replicate]

/-- C3 amended: the three decoders bound (or fail to bound) their buffers
in different ways.  The BLE handler leaves at most 9 buffered bytes after
every notification (clearing the buffer outright when no header byte is
found); VitalSignReader keeps its buffer below 2^15 by discarding
incoming chunks that would overflow it — it never drops the stored
bytes; the micRadar serial decoder has no cap at all, its buffer growing
linearly on magic-free input. -/
theorem buffer_cap_amended :
    (∀ (st : BleState) (data : List ℕ),
        (notificationHandler st data).receiveBuffer.length < 10) ∧
      (∀ chunks : List (List ℕ), (chunks.foldl vsrFeed []).length < 32768) ∧
      (∀ buf chunk : List ℕ, (vsrFeed buf chunk).take buf.length = buf) ∧
      (∀ n : ℕ, (radarZeroFeed n).buffer = List.replicate n 0) := by
  refine ⟨notificationHandler_bound,
    fun chunks => vsrFold_bound chunks [] (by simp), ?_, ?_⟩
  · intro buf chunk
    unfold vsrFeed
    split
    · exact List.take_left buf chunk
    · exact List.take_length buf
  · intro n
    rw [radarZeroFeed_eq n]

lemma mem_pushCap {cap : ℕ} {l : List ℕ} {v x : ℕ} (h : x ∈ pushCap cap l v) :
    x ∈ l ∨ x = v := by
  simp only [pushCap] at h
  have hap : x ∈ l ++ [v] := by
    split at h
    · exact h
    · exact List.drop_subset _ _ h
  rcases List.mem_append.mp hap with h' | h'
  · exact Or.inl h'
  · simp at h'
    exact Or.inr h'

lemma dispatch_some_hr_pos {st st' : RadarState} {now c m : ℕ} {p : List ℕ}
    (h : radarDispatch st now c m p = some st')
    (hpos : ∀ x ∈ st.heartRate, 0 < x) :
    ∀ x ∈ st'.heartRate, 0 < x := by
  unfold radarDispatch at h
  split at h
  · cases hp : p.head? with
    | none =>
      rw [hp] at h
      exact Option.noConfusion h
    | some v =>
      simp only [hp] at h
      by_cases hv : v = 0
      · rcases preprocess_eq st now (some v) none none none with h2 | h2 | h2 <;>
            simp only [h2] at h <;> split at h <;>
            (rw [Option.some_inj] at h; subst h) <;>
          first
            | (intro x hx; exact hpos x (by simpa using hx))
            | (rename_i hcond; exact absurd hcond.2 (by simpa using hv))
      · rcases preprocess_eq st now (some v) none none none with h2 | h2 | h2 <;>
            simp only [h2] at h <;> split at h <;>
            (rw [Option.some_inj] at h; subst h)
        · rename_i hcond
          simp at hcond
        · intro x hx
          exact hpos x (by simpa using hx)
        · intro x hx
          have hx' : x ∈ pushCap 480 st.heartRate v := by simpa using hx
          rcases mem_pushCap hx' with hxm | rfl
          · exact hpos x hxm
          · exact Nat.pos_of_ne_zero hv
        · intro x hx
          exact hpos x (by simpa using hx)
        · intro x hx
          have hx' : x ∈ pushCap 480 st.heartRate v := by simpa using hx
          rcases mem_pushCap hx' with hxm | rfl
          · exact hpos x hxm
          · exact Nat.pos_of_ne_zero hv
        · intro x hx
          exact hpos x (by simpa using hx)
  · split at h
    · cases hp : p.head? with
      | none =>
      rw [hp] at h
      exact Option.noConfusion h
      | some v =>
        simp only [hp] at h
        rcases preprocess_eq st now none (some v) none none with h2 | h2 | h2 <;>
            simp only [h2] at h <;> split at h <;>
            (rw [Option.some_inj] at h; subst h) <;>
          (intro x hx; exact hpos x (by simpa using hx))
    · split at h
      · cases hp : p.head? with
        | none =>
      rw [hp] at h
      exact Option.noConfusion h
        | some v =>
          simp only [hp] at h
          rcases preprocess_eq st now none none (some v) none with h2 | h2 | h2 <;>
              simp only [h2] at h <;> split at h <;>
              (rw [Option.some_inj] at h; subst h) <;>
            (intro x hx; exact hpos x (by simpa using hx))
      · rw [Option.some_inj] at h
        subst h
        exact hpos

lemma step_hr_pos {st : RadarState} {now : ℕ}
    {out : RadarState × Option (ℕ × ℕ × List ℕ)}
    (h : radarStep st now = some out) (hpos : ∀ x ∈ st.heartRate, 0 < x) :
    ∀ x ∈ out.1.heartRate, 0 < x := by
  unfold radarStep at h
  cases hpoll : radarPoll st.buffer with
  | mk f? buf' =>
    rw [hpoll] at h
    cases f? with
    | some fr =>
      obtain ⟨c, m, p⟩ := fr
      dsimp only at h
      cases hd : radarDispatch { st with buffer := buf' } now c m p with
      | none => rw [hd] at h; cases h
      | some st' =>
        rw [hd] at h
        rw [Option.some_inj] at h
        subst h
        exact dispatch_some_hr_pos hd hpos
    | none =>
      dsimp only at h
      rw [Option.some_inj] at h
      subst h
      exact hpos

lemma chunkStep_hr_pos {st st' : RadarState} {now : ℕ} {chunk : List ℕ}
    (h : radarChunkStep st now chunk = some st')
    (hpos : ∀ x ∈ st.heartRate, 0 < x) :
    ∀ x ∈ st'.heartRate, 0 < x := by
  unfold radarChunkStep at h
  split at h
  · rw [Option.some_inj] at h
    subst h
    exact hpos
  · cases hs : radarStep { st with buffer := st.buffer ++ chunk } now with
    | none => rw [hs] at h; cases h
    | some out =>
      rw [hs] at h
      rw [Option.map_some', Option.some_inj] at h
      subst h
      exact step_hr_pos hs hpos

lemma runChunks_hr_pos (chunks : List (ℕ × List ℕ)) :
    ∀ x ∈ (radarRunChunks chunks).heartRate, 0 < x := by
  unfold radarRunChunks
  have hgen : ∀ (l : List (ℕ × List ℕ)) (st : RadarState),
      (∀ x ∈ st.heartRate, 0 < x) →
      ∀ x ∈ (radarRunChunksAux l st).heartRate, 0 < x := by
    intro l
    induction l with
    | nil => intro st h; exact h
    | cons a l ih =>
      intro st h
      unfold radarRunChunksAux
      cases hc : radarChunkStep st a.1 a.2 with
      | none => exact h
      | some st' => exact ih st' (chunkStep_hr_pos hc h)
  exact hgen chunks radarInit (by intro x hx; simp [radarInit] at hx)

/-- C10: over any sequence of serial chunks, every element stored in the
radar heart-rate buffer is nonzero (zero readings are filtered before the
append), so every RR value `60000 / hr` the time-domain HRV computation
builds from a window of that buffer is a positive (finite) rational — the
division never sees a zero divisor. -/
theorem radar_hr_nonzero_rri_pos (chunks : List (ℕ × List ℕ)) :
    (∀ x ∈ (radarRunChunks chunks).heartRate, 0 < x) ∧
      ∀ ws rl, computeTimeRri ws (radarRunChunks chunks).heartRate = some rl →
        ∀ r ∈ rl, 0 < r := by
  refine ⟨runChunks_hr_pos chunks, ?_⟩
  intro ws rl hrl r hr
  unfold computeTimeRri at hrl
  split at hrl
  · rw [Option.some_inj] at hrl
    subst hrl
    rcases List.mem_map.mp hr with ⟨h, hmem, rfl⟩
    have hh : h ∈ (radarRunChunks chunks).heartRate := List.drop_subset _ _ hmem
    have hhpos : 0 < h := runChunks_hr_pos chunks h hh
    exact div_pos (by norm_num) (by exact_mod_cast hhpos)
  · cases hrl

/-- Witness for C10: one serial chunk carrying a valid heart-rate frame
with value 70. -/
theorem radar_hr_nonzero_rri_pos_witness :
    (0 : ℕ) < 70 ∧ (0 : ℚ) < 60000 / 70 :=
  ⟨(radar_hr_nonzero_rri_pos [(0, encodeFrame ⟨0x85, 0x02, [70]⟩)]).1 70 (by decide),
   (radar_hr_nonzero_rri_pos [(0, encodeFrame ⟨0x85, 0x02, [70]⟩)]).2 1
     [(60000 : ℚ) / 70]
     (by
       have h1 : (radarRunChunks [(0, encodeFrame ⟨0x85, 0x02, [70]⟩)]).heartRate
           = [70] := by decide
       rw [h1]
       norm_num [computeTimeRri])
     ((60000 : ℚ) / 70) (by simp)⟩

lemma findMagic_append_magic : ∀ (g r : List ℕ), magicFree g = true →
    findMagic (g ++ 0x53 :: 0x59 :: r) = some g.length
  | [], r, _ => by
    rw [List.nil_append]
    unfold findMagic
    rw [if_pos ⟨rfl, rfl⟩]
    rfl
  | [x], r, _ => by
    show findMagic (x :: 0x53 :: 0x59 :: r) = some 1
    unfold findMagic
    rw [if_neg (by simp)]
    unfold findMagic
    rw [if_pos ⟨rfl, rfl⟩]
    rfl
  | x :: y :: g, r, h => by
    unfold magicFree at h
    rw [Bool.and_eq_true] at h
    have hne : ¬(x = 0x53 ∧ y = 0x59) := by
      have h1 := h.1
      rwa [Bool.not_eq_true', decide_eq_false_iff_not] at h1
    have ih := findMagic_append_magic (y :: g) r h.2
    rw [List.cons_append, List.cons_append]
    unfold findMagic
    rw [if_neg hne, ← List.cons_append, ih]
    simp

lemma radarPoll_garbage_frame (g : List ℕ) (f : RadarFrame) (rest : List ℕ)
    (hg : magicFree g = true) :
    radarPoll (g ++ (encodeFrame f ++ rest)) = (some (f.ctrl, f.cmd, f.payload), rest) := by
  obtain ⟨c, m, p⟩ := f
  have hApp : encodeFrame ⟨c, m, p⟩ ++ rest
      = [(0x53:ℕ), 0x59, c, m, p.length / 256, p.length % 256] ++
        (p ++ ([calcChecksum ([(0x53:ℕ), 0x59, c, m, p.length / 256, p.length % 256] ++ p),
          0x54, 0x43] ++ rest)) := by
    simp [encodeFrame]
  have hmagic : findMagic (g ++ (encodeFrame ⟨c, m, p⟩ ++ rest)) = some g.length := by
    have hcons : encodeFrame ⟨c, m, p⟩ ++ rest
        = 0x53 :: 0x59 :: (c :: m :: p.length / 256 :: p.length % 256 ::
          (p ++ ([calcChecksum ([(0x53:ℕ), 0x59, c, m, p.length / 256, p.length % 256] ++ p),
            0x54, 0x43] ++ rest))) := by
      simp [encodeFrame]
    rw [hcons]
    exact findMagic_append_magic g _ hg
  set A : List ℕ := [(0x53:ℕ), 0x59, c, m, p.length / 256, p.length % 256] with hA
  set ck : ℕ := calcChecksum (A ++ p) with hck
  set Brest : List ℕ := p ++ ([ck, 0x54, 0x43] ++ rest) with hB
  unfold radarPoll
  rw [hmagic]
  dsimp only
  rw [hApp]
  rw [List.drop_left]
  have hget2 : (A ++ Brest).getD 2 0 = c := by simp [hA]
  have hget3 : (A ++ Brest).getD 3 0 = m := by simp [hA]
  have hget4 : (A ++ Brest).getD 4 0 = p.length / 256 := by simp [hA]
  have hget5 : (A ++ Brest).getD 5 0 = p.length % 256 := by simp [hA]
  rw [hget2, hget3, hget4, hget5, Nat.div_add_mod p.length 256]
  rw [if_neg (by
    simp only [List.length_append, List.length_cons, List.length_nil, hA, hB]
    omega)]
  rw [if_neg (by
    simp only [List.length_append, List.length_cons, List.length_nil, hA, hB]
    omega)]
  have hframe : (A ++ Brest).take (9 + p.length) = A ++ (p ++ [ck, 0x54, 0x43]) := by
    rw [show 9 + p.length = A.length + (p.length + 3) from by simp [hA]; omega,
      List.take_append, hB, List.take_append]
    norm_num
  rw [hframe]
  have hterm : (A ++ (p ++ [ck, 0x54, 0x43])).drop (9 + p.length - 2) = [0x54, 0x43] := by
    rw [show 9 + p.length - 2 = A.length + (p.length + 1) from by simp [hA]; omega,
      List.drop_append, List.drop_append]
    rfl
  rw [hterm]
  rw [if_neg (by simp)]
  have hcore : (A ++ (p ++ [ck, 0x54, 0x43])).take (6 + p.length) = A ++ p := by
    rw [show 6 + p.length = A.length + p.length from by simp [hA],
      List.take_append, List.take_left]
  have hckb : (A ++ (p ++ [ck, 0x54, 0x43])).getD (6 + p.length) 0 = ck := by
    rw [List.getD_append_right _ _ _ _ (by simp [hA]),
      show 6 + p.length - A.length = p.length from by simp [hA],
      List.getD_append_right _ _ _ _ (le_refl p.length)]
    simp
  rw [hcore, hckb, hck]
  rw [if_neg (by simp)]
  have hpay : ((A ++ (p ++ [ck, 0x54, 0x43])).drop 6).take p.length = p := by
    rw [show (6:ℕ) = A.length from by simp [hA], List.drop_left, List.take_left]
  rw [hpay]
  have hfin : (g ++ (A ++ Brest)).drop (g.length + (9 + p.length)) = rest := by
    rw [List.drop_append,
      show 9 + p.length = A.length + (p.length + 3) from by simp [hA]; omega,
      List.drop_append, hB, List.drop_append]
    rfl
  rw [hfin]

lemma dispatch_some_buffer {st st' : RadarState} {now c m : ℕ} {p : List ℕ}
    (h : radarDispatch st now c m p = some st') : st'.buffer = st.buffer := by
  unfold radarDispatch at h
  split at h
  · cases hp : p.head? with
    | none =>
      rw [hp] at h
      exact Option.noConfusion h
    | some v =>
      simp only [hp] at h
      rcases preprocess_eq st now (some v) none none none with h2 | h2 | h2 <;>
          simp only [h2] at h <;> split at h <;>
        (rw [Option.some_inj] at h; subst h; rfl)
  · split at h
    · cases hp : p.head? with
      | none =>
      rw [hp] at h
      exact Option.noConfusion h
      | some v =>
        simp only [hp] at h
        rcases preprocess_eq st now none (some v) none none with h2 | h2 | h2 <;>
            simp only [h2] at h <;> split at h <;>
          (rw [Option.some_inj] at h; subst h; rfl)
    · split at h
      · cases hp : p.head? with
        | none =>
      rw [hp] at h
      exact Option.noConfusion h
        | some v =>
          simp only [hp] at h
          rcases preprocess_eq st now none none (some v) none with h2 | h2 | h2 <;>
              simp only [h2] at h <;> split at h <;>
            (rw [Option.some_inj] at h; subst h; rfl)
      · rw [Option.some_inj] at h
        subst h
        rfl

lemma dispatch_safe_some (st : RadarState) (now : ℕ) (f : RadarFrame)
    (hs : dispatchSafe f = true) :
    ∃ st', radarDispatch st now f.ctrl f.cmd f.payload = some st' := by
  obtain ⟨c, m, p⟩ := f
  have hp : handledType c m = true → p ≠ [] := by
    intro hh hnil
    subst hnil
    rw [dispatchSafe, hh] at hs
    simp at hs
  unfold radarDispatch
  split
  · rename_i hcm
    cases hhd : p.head? with
    | none =>
      exfalso
      rw [List.head?_eq_none_iff] at hhd
      exact hp (by simp [handledType]; exact Or.inl (Or.inl hcm)) hhd
    | some v =>
      dsimp only
      split
      · exact ⟨_, rfl⟩
      · exact ⟨_, rfl⟩
  · split
    · rename_i hcm
      cases hhd : p.head? with
      | none =>
        exfalso
        rw [List.head?_eq_none_iff] at hhd
        exact hp (by simp [handledType]; exact Or.inl (Or.inr hcm)) hhd
      | some v =>
        dsimp only
        split
        · exact ⟨_, rfl⟩
        · exact ⟨_, rfl⟩
    · split
      · rename_i hcm
        cases hhd : p.head? with
        | none =>
          exfalso
          rw [List.head?_eq_none_iff] at hhd
          exact hp (by simp [handledType]; exact Or.inr hcm) hhd
        | some v =>
          dsimp only
          split
          · exact ⟨_, rfl⟩
          · exact ⟨_, rfl⟩
      · exact ⟨st, rfl⟩

lemma interleaved_cons (g : List ℕ) (f : RadarFrame)
    (rest : List (List ℕ × RadarFrame)) (gEnd : List ℕ) :
    interleaved ((g, f) :: rest) gEnd = g ++ (encodeFrame f ++ interleaved rest gEnd) := by
  simp [interleaved, List.append_assoc]

lemma radarDrain_interleaved :
    ∀ (pairs : List (List ℕ × RadarFrame)) (st : RadarState) (gEnd : List ℕ) (now fuel : ℕ),
      (∀ pr ∈ pairs, magicFree pr.1 = true ∧ dispatchSafe pr.2 = true) →
      magicFree gEnd = true →
      pairs.length < fuel →
      st.buffer = interleaved pairs gEnd →
      (radarDrain st now fuel).2 = pairs.map fun pr => (pr.2.ctrl, pr.2.cmd, pr.2.payload)
  | [], st, gEnd, now, fuel, _, hEnd, hfuel, hbuf => by
    cases fuel with
    | zero => omega
    | succ fuel =>
      unfold radarDrain
      rw [hbuf]
      unfold interleaved
      rw [radarPoll_none_of_magicFree gEnd hEnd]
      dsimp only
      rw [if_pos rfl]
      rfl
  | (g, f) :: rest, st, gEnd, now, fuel, hg, hEnd, hfuel, hbuf => by
    cases fuel with
    | zero => omega
    | succ fuel =>
      obtain ⟨hgf, hsafe⟩ := hg (g, f) (by simp)
      obtain ⟨st', hst'⟩ :=
        dispatch_safe_some { st with buffer := interleaved rest gEnd } now f hsafe
      unfold radarDrain
      rw [hbuf, interleaved_cons,
        radarPoll_garbage_frame g f (interleaved rest gEnd) hgf]
      dsimp only
      rw [hst']
      dsimp only
      rw [List.map_cons]
      congr 1
      exact radarDrain_interleaved rest st' gEnd now fuel
        (fun pr hpr => hg pr (List.mem_cons_of_mem _ hpr))
        hEnd (by simpa using Nat.lt_of_succ_lt_succ hfuel)
        (by rw [dispatch_some_buffer hst'])

lemma radarPoll_safety (buf : List ℕ) (c m : ℕ) (p buf' : List ℕ)
    (h : radarPoll buf = (some (c, m, p), buf')) :
    ∃ idx len,
      findMagic buf = some idx ∧
      len = 256 * (buf.drop idx).getD 4 0 + (buf.drop idx).getD 5 0 ∧
      calcChecksum (((buf.drop idx).take (9 + len)).take (6 + len))
        = ((buf.drop idx).take (9 + len)).getD (6 + len) 0 ∧
      ((buf.drop idx).take (9 + len)).drop (9 + len - 2) = [0x54, 0x43] ∧
      p = (((buf.drop idx).take (9 + len)).drop 6).take len ∧
      buf' = buf.drop (idx + (9 + len)) := by
  unfold radarPoll at h
  cases hfind : findMagic buf with
  | none =>
    rw [hfind] at h
    simp at h
  | some idx =>
    rw [hfind] at h
    dsimp only at h
    split at h
    · simp at h
    · split at h
      · simp at h
      · split at h
        · simp at h
        · split at h
          · simp at h
          · rename_i h8 hlen hterm hck
            rw [Prod.mk.injEq, Option.some.injEq, Prod.mk.injEq, Prod.mk.injEq] at h
            obtain ⟨⟨hc, hm, hp⟩, hb⟩ := h
            rw [not_not] at hterm hck
            exact ⟨idx, _, rfl, rfl, hck, hterm, hp.symm, hb.symm⟩

/-- C1 counterexample: the frame `85 02 / payload [77]` is valid on its
own (first conjunct), yet when it follows garbage containing a spurious
full header whose declared length (65535) reaches past the end of the
stream, a decode step neither yields anything nor changes the buffer, so
arbitrarily many repeated decode steps yield nothing: the valid frame is
never decoded. -/
theorem radar_resync_stall_cex :
    radarPoll (encodeFrame ⟨0x85, 0x02, [77]⟩) = (some (0x85, 0x02, [77]), []) ∧
      radarPoll badStallStream = (none, badStallStream) ∧
      (radarDrain { radarInit with buffer := badStallStream } 0 100).2 = [] ∧
      badStallStream = [0x53, 0x59, 0, 1, 0xFF, 0xFF] ++ encodeFrame ⟨0x85, 0x02, [77]⟩ := by
  refine ⟨by decide, by decide, by decide, rfl⟩

/-- C1 amended: (liveness) when the garbage segments interleaved between
valid frames contain no full `53 59` header sequence (arbitrary partial
magic bytes allowed) and every embedded frame of a handled type carries
a nonempty payload (so its handler's `payload[0]` read cannot raise),
repeated decode steps on the buffered stream yield exactly the embedded
frames, in stream order; (safety, unconditional) a frame is only ever
yielded for dispatch when its checksum byte equals the sum of its
header-through-payload bytes mod 256 and its terminator is `54 43`; and
an empty-payload handled frame kills the reader thread: on a stream of
one empty-payload heart-rate frame followed by a valid one, decoding
yields nothing at all. -/
theorem radar_frame_decoder_amended :
    (∀ (pairs : List (List ℕ × RadarFrame)) (gEnd : List ℕ) (now fuel : ℕ),
        (∀ pr ∈ pairs, magicFree pr.1 = true ∧ dispatchSafe pr.2 = true) →
        magicFree gEnd = true →
        pairs.length < fuel →
        (radarDrain { radarInit with buffer := interleaved pairs gEnd } now fuel).2
          = pairs.map fun pr => (pr.2.ctrl, pr.2.cmd, pr.2.payload)) ∧
      (∀ (buf : List ℕ) (c m : ℕ) (p buf' : List ℕ),
        radarPoll buf = (some (c, m, p), buf') →
        ∃ idx len,
          findMagic buf = some idx ∧
          len = 256 * (buf.drop idx).getD 4 0 + (buf.drop idx).getD 5 0 ∧
          calcChecksum (((buf.drop idx).take (9 + len)).take (6 + len))
            = ((buf.drop idx).take (9 + len)).getD (6 + len) 0 ∧
          ((buf.drop idx).take (9 + len)).drop (9 + len - 2) = [0x54, 0x43] ∧
          p = (((buf.drop idx).take (9 + len)).drop 6).take len ∧
          buf' = buf.drop (idx + (9 + len))) ∧
      (radarDrain
          { radarInit with
            buffer := encodeFrame ⟨0x85, 0x02, []⟩ ++ encodeFrame ⟨0x85, 0x02, [77]⟩ }
          0 100).2 = [] :=
  ⟨fun pairs gEnd now fuel h1 h2 h3 =>
    radarDrain_interleaved pairs _ gEnd now fuel h1 h2 h3 rfl,
   radarPoll_safety,
   by decide⟩

/-- Witness for the amended C1: garbage `[0, 1]`, one heart-rate frame,
trailing garbage `[7]`; and the safety conclusion at the bare frame. -/
theorem radar_frame_decoder_amended_witness :
    (radarDrain
        { radarInit with buffer := interleaved [([0, 1], ⟨0x85, 0x02, [77]⟩)] [7] } 0 2).2
      = [([0, 1], (⟨0x85, 0x02, [77]⟩ : RadarFrame))].map
          (fun pr => (pr.2.ctrl, pr.2.cmd, pr.2.payload)) ∧
      ∃ idx len,
        findMagic (encodeFrame ⟨0x85, 0x02, [77]⟩) = some idx ∧
        len = 256 * ((encodeFrame ⟨0x85, 0x02, [77]⟩).drop idx).getD 4 0
            + ((encodeFrame ⟨0x85, 0x02, [77]⟩).drop idx).getD 5 0 ∧
        calcChecksum ((((encodeFrame ⟨0x85, 0x02, [77]⟩).drop idx).take (9 + len)).take (6 + len))
          = (((encodeFrame ⟨0x85, 0x02, [77]⟩).drop idx).take (9 + len)).getD (6 + len) 0 ∧
        (((encodeFrame ⟨0x85, 0x02, [77]⟩).drop idx).take (9 + len)).drop (9 + len - 2)
          = [0x54, 0x43] ∧
        [77] = ((((encodeFrame ⟨0x85, 0x02, [77]⟩).drop idx).take (9 + len)).drop 6).take len ∧
        [] = (encodeFrame ⟨0x85, 0x02, [77]⟩).drop (idx + (9 + len)) :=
  ⟨radar_frame_decoder_amended.1 [([0, 1], ⟨0x85, 0x02, [77]⟩)] [7] 0 2
      (by decide) (by decide) (by decide),
   radar_frame_decoder_amended.2.1 (encodeFrame ⟨0x85, 0x02, [77]⟩) 0x85 0x02 [77] []
      (by decide)⟩

end AroundDemo
